import Mathlib

/-!
Verification of the circuits reactive I/O layer: a shallow embedding of
`circuits/io/file.py` (the non-blocking `File` stream component) and of
`circuits/core/helpers.py` (the `FallBackGenerator` idle-wait handler),
together with theorems about the buffered-write state machine, the close
protocol and the idle-wait contract.
-/

namespace Circuits

/-- A Python exception class, as far as the modelled code can raise one.
`self._fd.closed` with `_fd = None`, or a method call on a `None` poller,
raises `AttributeError`. -/
inductive PyErr
  | attributeError
deriving DecidableEq, Repr

/-- A chunk of bytes handed to `write` (Python `bytes`/`str`, modelled as a
list of byte values). -/
abbrev Chunk := List Nat

/-- Signals fired by the `File` component (from `circuits/io/events`):
`Opened`, `Read(data)`, `EOF`, `Error(errno)`, `Closed`.  `Ready` is left out:
no claim mentions it. -/
inductive Ev
  | opened
  | readEv (data : Chunk)
  | eof
  | errorEv (errno : Nat)
  | closedEv
deriving DecidableEq, Repr

/-- The OS-level descriptor `self._fd` (a Python file object): only its
`closed` flag matters to the modelled code. -/
structure FDState where
  closedF : Bool
deriving DecidableEq, Repr

/-- The poller registration state for this component's descriptor: whether it
is registered as a reader (`addReader`) and as a writer
(`addWriter`/`isWriting`/`removeWriter`); `discard` drops both. -/
structure PollerState where
  reading : Bool
  writing : Bool
deriving DecidableEq, Repr

/-- The mutable state of a `File` component, together with an `events` log of
the signals it has fired since this snapshot and a `sink` log of the bytes
accepted by `os.write` on its descriptor.

`fd` is `none` before `_on_ready` opens the file (Python `self._fd = None`);
`poller` is `none` before registration binds one.  `connected` is `none`
until `_close` first assigns `self._connected = False` (the attribute does
not exist before that assignment anywhere in `file.py`). -/
structure FileState where
  fd : Option FDState
  poller : Option PollerState
  buffer : List Chunk
  closeflag : Bool
  connected : Option Bool
  sink : List Nat
  events : List Ev
deriving DecidableEq, Repr

/-- `errno.EPIPE` (Linux value). -/
def errnoEPIPE : Nat := 32

/-- `errno.ENOTCONN` (Linux value). -/
def errnoENOTCONN : Nat := 107

/-- `errno.EWOULDBLOCK` (Linux value). -/
def errnoEWOULDBLOCK : Nat := 11

/-- Append a fired signal to the event log (`self.fire(...)`). -/
def fireEv (st : FileState) (e : Ev) : FileState :=
  { st with events := st.events ++ [e] }

namespace File

/-- The state right after `init`: `self._fd = None`, `self._poller = None`,
`self._buffer = deque()`, `self._closeflag = False`. -/
def initState : FileState :=
  { fd := none, poller := none, buffer := [], closeflag := false,
    connected := none, sink := [], events := [] }

/-- A component that has been registered with a poller and whose `ready`
handler has opened the descriptor in a readable mode: `self._fd` is an open
file object and `addReader` has registered it.  The `events` and `sink` logs
record only what is fired from this snapshot on. -/
def openState : FileState :=
  { fd := some { closedF := false },
    poller := some { reading := true, writing := false },
    buffer := [], closeflag := false, connected := none, sink := [], events := [] }

/-- The `closed` property: `self._fd.closed if hasattr(self, "_fd") else None`.
After `init` the attribute always exists, so with `_fd = None` the attribute
access `None.closed` raises `AttributeError`. -/
def closedProp (st : FileState) : Except PyErr Bool :=
  match st.fd with
  | none => .error .attributeError
  | some f => .ok f.closedF

/-- `File._close` (file.py lines 103-118).  Returns early when the `closed`
property is truthy; otherwise discards the descriptor from the poller, clears
the buffer and the close flag, marks the component disconnected, attempts
`self._fd.cllse()` — a typo for `close()`, so the call raises
`AttributeError`, which the bare `except: pass` swallows and the descriptor
stays open — and fires `Closed`. -/
def _close (st : FileState) : Except PyErr FileState :=
  match st.fd with
  | none => .error .attributeError
  | some f =>
    if f.closedF then .ok st
    else
      match st.poller with
      | none => .error .attributeError
      | some p =>
        .ok (fireEv
          { st with poller := some { p with reading := false, writing := false },
                    buffer := [], closeflag := false, connected := some false }
          .closedEv)

/-- `File.close` (file.py lines 120-124): close now when the buffer is empty,
otherwise just set `self._closeflag`. -/
def close (st : FileState) : Except PyErr FileState :=
  if st.buffer = [] then _close st
  else if !st.closeflag then .ok { st with closeflag := true }
  else .ok st

/-- `File.write` (file.py lines 156-159): register as writer when not already
writing, then append `data` to the tail of the buffer.  Note there is no
check of `self._closeflag`. -/
def write (st : FileState) (data : Chunk) : Except PyErr FileState :=
  match st.poller with
  | none => .error .attributeError
  | some p =>
    let p := if !p.writing then { p with writing := true } else p
    .ok { st with poller := some p, buffer := st.buffer ++ [data] }

/-- The outcome the OS gives one `os.write(self._fd.fileno(), data)` call:
either `nbytes` were accepted, or the call raised an `OSError` carrying
`errno`. -/
inductive WriteOutcome
  | written (nbytes : Nat)
  | fault (errno : Nat)
deriving DecidableEq, Repr

/-- `File._write` (file.py lines 144-154), parameterised by the OS outcome of
the `os.write` call.  On a short write the unwritten remainder is pushed back
onto the head of the buffer; on `EPIPE`/`ENOTCONN` the component force-closes
via `_close`; any other `OSError` fires `Error` and nothing else.  The
`self._fd.fileno()` access requires the descriptor to exist. -/
def _write (st : FileState) (data : Chunk) (o : WriteOutcome) : Except PyErr FileState :=
  match st.fd with
  | none => .error .attributeError
  | some _ =>
    match o with
    | .written n =>
      let st := { st with sink := st.sink ++ data.take n }
      if n < data.length then .ok { st with buffer := data.drop n :: st.buffer }
      else .ok st
    | .fault e =>
      if e = errnoEPIPE ∨ e = errnoENOTCONN then _close st
      else .ok (fireEv st (.errorEv e))

/-- The outcome the OS gives one `self._fd.read(self._bufsize)` call: some
data (possibly empty, meaning end of stream), or an `OSError` carrying
`errno`. -/
inductive ReadOutcome
  | bytes (data : Chunk)
  | fault (errno : Nat)
deriving DecidableEq, Repr

/-- `File._read` (file.py lines 126-139), parameterised by the OS outcome.
Nonempty data fires `Read` (with `.notify = True`, not modelled further);
empty data fires `EOF` and calls `close`; `EWOULDBLOCK` is ignored; any other
`OSError` fires `Error` and force-closes via `_close`. -/
def _read (st : FileState) (o : ReadOutcome) : Except PyErr FileState :=
  match st.fd with
  | none => .error .attributeError
  | some _ =>
    match o with
    | .bytes data =>
      if data ≠ [] then .ok (fireEv st (.readEv data))
      else close (fireEv st .eof)
    | .fault e =>
      if e = errnoEWOULDBLOCK then .ok st
      else _close (fireEv st (.errorEv e))

/-- The `_write` readiness handler `File.__on_write` (file.py lines 169-179):
pop the head chunk and `_write` it when the buffer is nonempty; afterwards,
when the buffer is empty, either tear down (`_closeflag`) or deregister as
writer (`isWriting`/`removeWriter`). -/
def on_write (st : FileState) (o : WriteOutcome) : Except PyErr FileState :=
  let step : Except PyErr FileState :=
    match st.buffer with
    | [] => .ok st
    | d :: rest => _write { st with buffer := rest } d o
  match step with
  | .error e => .error e
  | .ok st1 =>
    if st1.buffer = [] then
      if st1.closeflag then _close st1
      else
        match st1.poller with
        | none => .error .attributeError
        | some p =>
          if p.writing then .ok { st1 with poller := some { p with writing := false } }
          else .ok st1
    else .ok st1

/-- The `_read` readiness handler `File.__on_read` (file.py lines 165-167). -/
def on_read (st : FileState) (o : ReadOutcome) : Except PyErr FileState :=
  _read st o

/-- The `_disconnect` handler `File.__on_disconnect` (file.py lines 161-163). -/
def on_disconnect (st : FileState) : Except PyErr FileState :=
  _close st

/-- Submit a sequence of chunks through `write`, in order. -/
def writeAll (st : FileState) (cs : List Chunk) : Except PyErr FileState :=
  match cs with
  | [] => .ok st
  | c :: cs =>
    match write st c with
    | .error e => .error e
    | .ok st => writeAll st cs

/-- Deliver a sequence of writer-readiness notifications, each with the OS
outcome the corresponding `os.write` call would see. -/
def drainWith (st : FileState) (os : List WriteOutcome) : Except PyErr FileState :=
  match os with
  | [] => .ok st
  | o :: os =>
    match on_write st o with
    | .error e => .error e
    | .ok st => drainWith st os

end File

namespace FallBackGenerator

/-- The hard-coded timeout passed to `self._continue.wait(10000)` in the
`time_left < 0` loop of `_on_generate_events` (helpers.py line 56).
`threading.Event.wait` takes its timeout in seconds. -/
def idleSliceTimeout : Nat := 10000

/-- `threading.Event.wait(timeout)` semantics: the wait returns after
`timeout` time units, or as soon as the event is set — level-triggered, so a
set that happened at or before the wait still unblocks it immediately.
`setAt` is the instant (measured from the start of the wait) at which some
thread calls `set` via `resume()`, `none` when no thread does. -/
def eventWaitDuration (timeout : Nat) (setAt : Option Nat) : Nat :=
  match setAt with
  | none => timeout
  | some s => min timeout s

/-- Modelled from the spec: `GenerateEvents.reduce_time_left` lives in
`circuits/core/events.py`, which is not under src/; the spec states that
after waking, the handler normalizes `time_left` to 0 "so the loop does not
additionally sleep elsewhere". -/
def reduce_time_left_to (t : Int) : Int := t

/-- The `time_left > 0` branch of `FallBackGenerator._on_generate_events`
(helpers.py lines 36-46): one `self._continue.wait(event.time_left)`, then
`event.reduce_time_left(0)`.  Returns the duration of the wait and the
resulting `time_left`. -/
def on_generate_events_pos (time_left : Int) (resumeAt : Option Nat) : Nat × Int :=
  (eventWaitDuration time_left.toNat resumeAt, reduce_time_left_to 0)

/-- The `time_left < 0` branch of `FallBackGenerator._on_generate_events`
(helpers.py lines 48-56): `while event.time_left < 0: self._continue.wait(10000)`.
`tl k` is the value of `event.time_left` observed at the k-th evaluation of
the loop condition (other threads may raise it concurrently under the event's
lock); `fuel` bounds the number of iterations examined.  Returns the list of
timeouts passed to `self._continue.wait`. -/
def negLoopWaits (tl : Nat → Int) : Nat → List Nat
  | 0 => []
  | fuel + 1 =>
    if tl 0 < 0 then idleSliceTimeout :: negLoopWaits (fun i => tl (i + 1)) fuel
    else []

end FallBackGenerator

/-! ## Helper lemmas -/

namespace File

/-- State produced by a successful `_close` on a not-yet-"closed" descriptor:
poller registration discarded, buffer and close flag cleared, component marked
disconnected, `Closed` fired.  The descriptor itself stays open because
`_fd.cllse()` raises and the exception is swallowed. -/
def closedResult (st : FileState) : FileState :=
  { st with poller := some { reading := false, writing := false },
            buffer := [], closeflag := false, connected := some false,
            events := st.events ++ [Ev.closedEv] }

theorem _close_ok (st : FileState) (f : FDState) (p : PollerState)
    (hfd : st.fd = some f) (hc : f.closedF = false) (hp : st.poller = some p) :
    _close st = .ok (closedResult st) := by
  simp [_close, hfd, hc, hp, closedResult, fireEv]

theorem close_ok_empty (st : FileState) (f : FDState) (p : PollerState)
    (hfd : st.fd = some f) (hc : f.closedF = false) (hp : st.poller = some p)
    (hbuf : st.buffer = []) :
    close st = .ok (closedResult st) := by
  simp [close, hbuf, _close_ok st f p hfd hc hp]

theorem close_ok_nonempty (st : FileState) (hbuf : st.buffer ≠ []) :
    close st = .ok { st with closeflag := true } := by
  rcases hflag : st.closeflag with _ | _
  · simp [close, hbuf, hflag]
  · simp only [close, hbuf, hflag]
    cases st
    simp_all

theorem write_ok (st : FileState) (p : PollerState) (hp : st.poller = some p)
    (data : Chunk) :
    write st data =
      .ok { st with poller := some { p with writing := true },
                    buffer := st.buffer ++ [data] } := by
  obtain ⟨r, w⟩ := p
  rcases w with _ | _ <;> simp [write, hp]

/-! Characterization of the `__on_write` handler, one lemma per control path. -/

theorem on_write_empty_flag (st : FileState) (f : FDState) (p : PollerState)
    (hfd : st.fd = some f) (hc : f.closedF = false) (hp : st.poller = some p)
    (hbuf : st.buffer = []) (hflag : st.closeflag = true) (o : WriteOutcome) :
    on_write st o = .ok (closedResult st) := by
  simp [on_write, hbuf, hflag, _close_ok st f p hfd hc hp]

theorem on_write_empty_noflag (st : FileState) (p : PollerState)
    (hp : st.poller = some p) (hbuf : st.buffer = []) (hflag : st.closeflag = false)
    (o : WriteOutcome) :
    on_write st o = .ok { st with poller := some { p with writing := false } } := by
  obtain ⟨r, w⟩ := p
  rcases w with _ | _
  · simp only [on_write, hbuf, hflag, hp]
    cases st
    simp_all
  · simp [on_write, hbuf, hflag, hp]

theorem on_write_short (st : FileState) (f : FDState) (d : Chunk)
    (rest : List Chunk) (n : Nat) (hfd : st.fd = some f)
    (hbuf : st.buffer = d :: rest) (hn : n < d.length) :
    on_write st (.written n) =
      .ok { st with buffer := d.drop n :: rest, sink := st.sink ++ d.take n } := by
  simp [on_write, hbuf, _write, hfd, hn]

theorem on_write_full_cons (st : FileState) (f : FDState) (d r : Chunk)
    (rest : List Chunk) (n : Nat) (hfd : st.fd = some f)
    (hbuf : st.buffer = d :: r :: rest) (hn : d.length ≤ n) :
    on_write st (.written n) =
      .ok { st with buffer := r :: rest, sink := st.sink ++ d } := by
  simp [on_write, hbuf, _write, hfd, Nat.not_lt.mpr hn, List.take_of_length_le hn]

theorem on_write_full_last_flag (st : FileState) (f : FDState) (p : PollerState)
    (d : Chunk) (n : Nat) (hfd : st.fd = some f) (hc : f.closedF = false)
    (hp : st.poller = some p) (hbuf : st.buffer = [d]) (hn : d.length ≤ n)
    (hflag : st.closeflag = true) :
    on_write st (.written n) =
      .ok (closedResult { st with buffer := [], sink := st.sink ++ d }) := by
  obtain ⟨fd0, po0, buf0, cf0, co0, sk0, ev0⟩ := st
  simp only at hfd hp hbuf hflag
  subst hfd hp hbuf hflag
  simp [on_write, _write, _close, fireEv, closedResult, hc, Nat.not_lt.mpr hn,
    List.take_of_length_le hn]

theorem on_write_full_last_noflag (st : FileState) (f : FDState) (p : PollerState)
    (d : Chunk) (n : Nat) (hfd : st.fd = some f) (hp : st.poller = some p)
    (hbuf : st.buffer = [d]) (hn : d.length ≤ n) (hflag : st.closeflag = false) :
    on_write st (.written n) =
      .ok { st with buffer := [], sink := st.sink ++ d,
                    poller := some { p with writing := false } } := by
  obtain ⟨r, w⟩ := p
  rcases w with _ | _
  · simp only [on_write, hbuf, _write, hfd, Nat.not_lt.mpr hn,
      List.take_of_length_le hn, hflag, hp]
    cases st
    simp_all
  · simp [on_write, hbuf, _write, hfd, Nat.not_lt.mpr hn,
      List.take_of_length_le hn, hflag, hp]

theorem on_write_fault_peer (st : FileState) (f : FDState) (p : PollerState)
    (d : Chunk) (rest : List Chunk) (e : Nat) (hfd : st.fd = some f)
    (hc : f.closedF = false) (hp : st.poller = some p)
    (hbuf : st.buffer = d :: rest) (he : e = errnoEPIPE ∨ e = errnoENOTCONN) :
    on_write st (.fault e) = .ok (closedResult st) := by
  have h := _close_ok { st with buffer := rest } f p hfd hc (by simpa using hp)
  simp only [on_write, hbuf, _write, hfd, he, closedResult] at h ⊢
  simp [h, closedResult]

theorem on_write_fault_other_cons (st : FileState) (f : FDState) (d r : Chunk)
    (rest : List Chunk) (e : Nat) (hfd : st.fd = some f)
    (hbuf : st.buffer = d :: r :: rest) (he1 : e ≠ errnoEPIPE)
    (he2 : e ≠ errnoENOTCONN) :
    on_write st (.fault e) =
      .ok { st with buffer := r :: rest, events := st.events ++ [Ev.errorEv e] } := by
  simp [on_write, hbuf, _write, hfd, he1, he2, fireEv]

theorem on_write_fault_other_last_flag (st : FileState) (f : FDState)
    (p : PollerState) (d : Chunk) (e : Nat) (hfd : st.fd = some f)
    (hc : f.closedF = false) (hp : st.poller = some p) (hbuf : st.buffer = [d])
    (he1 : e ≠ errnoEPIPE) (he2 : e ≠ errnoENOTCONN) (hflag : st.closeflag = true) :
    on_write st (.fault e) =
      .ok (closedResult { st with buffer := [],
                                  events := st.events ++ [Ev.errorEv e] }) := by
  obtain ⟨fd0, po0, buf0, cf0, co0, sk0, ev0⟩ := st
  simp only at hfd hp hbuf hflag
  subst hfd hp hbuf hflag
  simp [on_write, _write, _close, fireEv, closedResult, hc, he1, he2]

theorem on_write_fault_other_last_noflag (st : FileState) (f : FDState)
    (p : PollerState) (d : Chunk) (e : Nat) (hfd : st.fd = some f)
    (hp : st.poller = some p) (hbuf : st.buffer = [d]) (he1 : e ≠ errnoEPIPE)
    (he2 : e ≠ errnoENOTCONN) (hflag : st.closeflag = false) :
    on_write st (.fault e) =
      .ok { st with buffer := [], events := st.events ++ [Ev.errorEv e],
                    poller := some { p with writing := false } } := by
  obtain ⟨r, w⟩ := p
  rcases w with _ | _
  · simp only [on_write, hbuf, _write, hfd, he1, he2, fireEv, hflag, hp]
    cases st
    simp_all
  · simp [on_write, hbuf, _write, hfd, he1, he2, fireEv, hflag, hp]

/-! Characterization of the `__on_read` handler, one lemma per control path. -/

theorem on_read_data (st : FileState) (f : FDState) (data : Chunk)
    (hfd : st.fd = some f) (hdata : data ≠ []) :
    on_read st (.bytes data) = .ok { st with events := st.events ++ [Ev.readEv data] } := by
  simp [on_read, _read, hfd, hdata, fireEv]

theorem on_read_eof_empty (st : FileState) (f : FDState) (p : PollerState)
    (hfd : st.fd = some f) (hc : f.closedF = false) (hp : st.poller = some p)
    (hbuf : st.buffer = []) :
    on_read st (.bytes []) =
      .ok (closedResult { st with events := st.events ++ [Ev.eof] }) := by
  obtain ⟨fd0, po0, buf0, cf0, co0, sk0, ev0⟩ := st
  simp only at hfd hp hbuf
  subst hfd hp hbuf
  simp [on_read, _read, close, _close, fireEv, closedResult, hc]

theorem on_read_eof_nonempty (st : FileState) (f : FDState)
    (hfd : st.fd = some f) (hbuf : st.buffer ≠ []) :
    on_read st (.bytes []) =
      .ok { st with closeflag := true, events := st.events ++ [Ev.eof] } := by
  have h := close_ok_nonempty (fireEv st .eof) (by simpa [fireEv] using hbuf)
  simp [on_read, _read, hfd, fireEv] at h ⊢
  simp [h]

theorem on_read_wouldblock (st : FileState) (f : FDState) (hfd : st.fd = some f) :
    on_read st (.fault errnoEWOULDBLOCK) = .ok st := by
  simp [on_read, _read, hfd]

theorem on_read_fault (st : FileState) (f : FDState) (p : PollerState) (e : Nat)
    (hfd : st.fd = some f) (hc : f.closedF = false) (hp : st.poller = some p)
    (he : e ≠ errnoEWOULDBLOCK) :
    on_read st (.fault e) =
      .ok (closedResult { st with events := st.events ++ [Ev.errorEv e] }) := by
  obtain ⟨fd0, po0, buf0, cf0, co0, sk0, ev0⟩ := st
  simp only at hfd hp
  subst hfd hp
  simp [on_read, _read, _close, fireEv, closedResult, hc, he]

end File

/-! ## Claims about the close protocol (C2, C7) -/

namespace File

/-- Snapshot after one `close()` of `openState`: `Closed` has been fired, the
poller registration is discarded, but — because `_fd.cllse()` is a typo for
`close()` and its AttributeError is swallowed — the descriptor is still open. -/
def closedOnceState : FileState :=
  { fd := some { closedF := false },
    poller := some { reading := false, writing := false },
    buffer := [], closeflag := false, connected := some false, sink := [],
    events := [Ev.closedEv] }

/-- C2: the claim says a second `close()` on an already-closed component fires
no additional `Closed` signal.  The code violates this: `_close` tries to
close the descriptor with `self._fd.cllse()` — a typo for `close()` — whose
`AttributeError` the bare `except: pass` swallows, so `self._fd.closed` never
becomes true, the guard `if self.closed: return` never triggers, and a second
`close()` runs the whole teardown again, firing a second `Closed`. -/
theorem second_close_fires_second_closed :
    close openState = .ok closedOnceState ∧
    closedProp closedOnceState = .ok false ∧
    close closedOnceState =
      .ok { closedOnceState with events := [Ev.closedEv, Ev.closedEv] } :=
  ⟨rfl, rfl, rfl⟩

/-- C7 counterexample: the claim says `close()` never raises in any state,
including before the descriptor has been opened.  In the initial state
`self._fd` is `None`, so the `closed` property evaluates `None.closed` and
`close()` propagates an `AttributeError`. -/
theorem close_before_open_raises_cex :
    close initState = .error PyErr.attributeError := rfl

/-- C7 amended: once the descriptor has been opened and a poller is bound,
`close()` completes without propagating an exception in every state — any
buffer contents, close flag, or an already-"closed" descriptor — because the
only fallible step, releasing the descriptor, sits inside a bare
`try/except: pass`. -/
theorem close_never_raises_after_open (st : FileState) (f : FDState)
    (p : PollerState) (hfd : st.fd = some f) (hp : st.poller = some p) :
    ∃ st', close st = .ok st' := by
  rcases hc : f.closedF with _ | _
  · rcases hbuf : st.buffer with _ | ⟨d, rest⟩
    · exact ⟨_, close_ok_empty st f p hfd hc hp hbuf⟩
    · exact ⟨_, close_ok_nonempty st (by simp [hbuf])⟩
  · rcases hbuf : st.buffer with _ | ⟨d, rest⟩
    · refine ⟨st, ?_⟩
      simp [close, hbuf, _close, hfd, hc]
    · exact ⟨_, close_ok_nonempty st (by simp [hbuf])⟩

/-- C7 witness: `close()` on the open state succeeds. -/
theorem close_never_raises_after_open_witness :
    ∃ st', close openState = .ok st' :=
  close_never_raises_after_open openState { closedF := false }
    { reading := true, writing := false } rfl rfl

end File

/-! ## Claims about deferred close (C3, C5) -/

namespace File

/-- Open component with one pending chunk, registered as writer, on which a
close has been requested (`write [1]` then `close` from `openState`). -/
def closeRequestedState : FileState :=
  { fd := some { closedF := false },
    poller := some { reading := true, writing := true },
    buffer := [[1]], closeflag := true, connected := none, sink := [],
    events := [] }

/-- C3 counterexample: the claim says that once `closeRequested` is true no
subsequent `write(data)` call adds new data to `pendingWrites`.  The code's
`write` never checks `_closeflag`: reaching the close-requested state by
`write [1]; close()` and then calling `write [2]` appends the new chunk. -/
theorem write_after_close_requested_appends_cex :
    write openState [1] =
      .ok { openState with poller := some { reading := true, writing := true },
                           buffer := [[1]] } ∧
    close { openState with poller := some { reading := true, writing := true },
                           buffer := [[1]] } = .ok closeRequestedState ∧
    closeRequestedState.closeflag = true ∧
    write closeRequestedState [2] =
      .ok { closeRequestedState with buffer := [[1], [2]] } :=
  ⟨rfl, rfl, rfl, rfl⟩

/-- C3 amended: once `closeRequested` is true, a subsequent `write(data)`
still appends `data` to `pendingWrites` (the code does not gate `write` on
the close flag), and the component closes — fires exactly one additional
`Closed` — as soon as a writer-readiness notification leaves `pendingWrites`
empty. -/
theorem close_requested_write_and_drain (st : FileState) (f : FDState)
    (p : PollerState) (hfd : st.fd = some f) (hc : f.closedF = false)
    (hp : st.poller = some p) (hflag : st.closeflag = true) :
    (∀ d, write st d =
      .ok { st with poller := some { p with writing := true },
                    buffer := st.buffer ++ [d] }) ∧
    (∀ o st', on_write st o = .ok st' → st'.buffer = [] →
      st'.events.count Ev.closedEv = st.events.count Ev.closedEv + 1) := by
  refine ⟨fun d => write_ok st p hp d, fun o st' hok hempty => ?_⟩
  rcases hbuf : st.buffer with _ | ⟨d, rest⟩
  · rw [on_write_empty_flag st f p hfd hc hp hbuf hflag o] at hok
    cases hok
    simp [closedResult]
  · rcases o with n | e
    · by_cases hn : n < d.length
      · rw [on_write_short st f d rest n hfd hbuf hn] at hok
        cases hok
        simp at hempty
      · rcases rest with _ | ⟨r, rest⟩
        · rw [on_write_full_last_flag st f p d n hfd hc hp hbuf
            (Nat.le_of_not_lt hn) hflag] at hok
          cases hok
          simp [closedResult]
        · rw [on_write_full_cons st f d r rest n hfd hbuf
            (Nat.le_of_not_lt hn)] at hok
          cases hok
          simp at hempty
    · by_cases he : e = errnoEPIPE ∨ e = errnoENOTCONN
      · rw [on_write_fault_peer st f p d rest e hfd hc hp hbuf he] at hok
        cases hok
        simp [closedResult]
      · push_neg at he
        rcases rest with _ | ⟨r, rest⟩
        · rw [on_write_fault_other_last_flag st f p d e hfd hc hp hbuf
            he.1 he.2 hflag] at hok
          cases hok
          simp [closedResult]
        · rw [on_write_fault_other_cons st f d r rest e hfd hbuf he.1 he.2] at hok
          cases hok
          simp at hempty

/-- State produced by draining the close-requested component with one fully
accepted `os.write`: buffer empty, teardown done, one `Closed` fired. -/
def drainedClosedState : FileState :=
  { fd := some { closedF := false },
    poller := some { reading := false, writing := false },
    buffer := [], closeflag := false, connected := some false, sink := [1],
    events := [Ev.closedEv] }

/-- C3 witness: from the close-requested state, `write` still appends, and a
writer-ready notification whose `os.write` accepts the whole chunk leaves the
buffer empty and fires exactly one `Closed`. -/
theorem close_requested_write_and_drain_witness :
    (write closeRequestedState [7] =
      .ok { closeRequestedState with buffer := [[1], [7]] }) ∧
    drainedClosedState.events.count Ev.closedEv =
      closeRequestedState.events.count Ev.closedEv + 1 := by
  have h := close_requested_write_and_drain closeRequestedState { closedF := false }
    { reading := true, writing := true } rfl rfl rfl rfl
  exact ⟨h.1 [7], h.2 (.written 1) drainedClosedState rfl rfl⟩

/-- Open component with one pending chunk, registered as reader and writer,
about to observe a zero-byte read. -/
def pendingAtEofState : FileState :=
  { fd := some { closedF := false },
    poller := some { reading := true, writing := true },
    buffer := [[9]], closeflag := false, connected := none, sink := [],
    events := [] }

/-- C5 counterexample: the claim says a zero-byte read yields exactly one
`EOF` followed by exactly one `Closed` with no further read attempts, even
when `pendingWrites` is non-empty.  With a non-empty buffer the code merely
sets `_closeflag`: no `Closed` is fired, the descriptor stays registered as a
reader, and a second zero-byte read fires a second `EOF`. -/
theorem eof_with_pending_writes_cex :
    on_read pendingAtEofState (.bytes []) =
      .ok { pendingAtEofState with closeflag := true, events := [Ev.eof] } ∧
    (Ev.closedEv ∉ [Ev.eof]) ∧
    on_read { pendingAtEofState with closeflag := true, events := [Ev.eof] }
      (.bytes []) =
      .ok { pendingAtEofState with closeflag := true,
                                   events := [Ev.eof, Ev.eof] } :=
  ⟨rfl, by decide, rfl⟩

/-- C5 amended: a zero-byte read fires `EOF` and then requests a close.  When
`pendingWrites` is empty the close completes at once: exactly one `Closed`
follows the `EOF` and the descriptor is discarded from the poller, so no
further read attempts occur.  When `pendingWrites` is non-empty the close is
deferred — only the close flag is set, no `Closed` is fired yet, and the
reader registration (hence the possibility of further read attempts) is left
intact until the buffer drains. -/
theorem zero_byte_read_eof_close (st : FileState) (f : FDState) (p : PollerState)
    (hfd : st.fd = some f) (hc : f.closedF = false) (hp : st.poller = some p) :
    (st.buffer = [] → on_read st (.bytes []) =
      .ok (closedResult { st with events := st.events ++ [Ev.eof] })) ∧
    (st.buffer ≠ [] → on_read st (.bytes []) =
      .ok { st with closeflag := true, events := st.events ++ [Ev.eof] }) :=
  ⟨fun hbuf => on_read_eof_empty st f p hfd hc hp hbuf,
   fun hbuf => on_read_eof_nonempty st f hfd hbuf⟩

/-- C5 witness: a zero-byte read on the open component with an empty buffer
fires `EOF` then `Closed` and discards the poller registration. -/
theorem zero_byte_read_eof_close_witness :
    on_read openState (.bytes []) =
      .ok (closedResult { openState with events := [Ev.eof] }) :=
  (zero_byte_read_eof_close openState { closedF := false }
    { reading := true, writing := false } rfl rfl rfl).1 rfl

end File

/-! ## Claim C1: drained bytes are the concatenation of the submitted chunks -/

namespace File

theorem writeAll_ok (cs : List Chunk) (st : FileState) (p : PollerState)
    (hp : st.poller = some p) :
    ∃ st' p', writeAll st cs = .ok st' ∧ st'.poller = some p' ∧
      st'.fd = st.fd ∧ st'.closeflag = st.closeflag ∧ st'.sink = st.sink ∧
      st'.buffer = st.buffer ++ cs := by
  induction cs generalizing st p with
  | nil => exact ⟨st, p, by simp [writeAll], hp, rfl, rfl, rfl, by simp⟩
  | cons c cs ih =>
    obtain ⟨st', p', h, hp', hfd, hflag, hsink, hbuf⟩ :=
      ih { st with poller := some { p with writing := true },
                   buffer := st.buffer ++ [c] } { p with writing := true } rfl
    refine ⟨st', p', ?_, hp', by simpa using hfd, by simpa using hflag,
      by simpa using hsink, by simpa using hbuf⟩
    simp [writeAll, write_ok st p hp c, h]

theorem on_write_written_inv (st : FileState) (n : Nat) (f : FDState)
    (p : PollerState) (hfd : st.fd = some f) (hp : st.poller = some p)
    (hflag : st.closeflag = false) :
    ∃ st' p', on_write st (.written n) = .ok st' ∧ st'.fd = some f ∧
      st'.poller = some p' ∧ st'.closeflag = false ∧
      st'.sink ++ st'.buffer.flatten = st.sink ++ st.buffer.flatten := by
  rcases hbuf : st.buffer with _ | ⟨d, rest⟩
  · exact ⟨_, _, on_write_empty_noflag st p hp hbuf hflag (.written n),
      by simpa using hfd, rfl, by simpa using hflag, by simp [hbuf]⟩
  · by_cases hn : n < d.length
    · refine ⟨_, p, on_write_short st f d rest n hfd hbuf hn,
        by simpa using hfd, by simpa using hp, by simpa using hflag, ?_⟩
      simp only [hbuf, List.flatten_cons, List.append_assoc]
      rw [← List.append_assoc (List.take n d), List.take_append_drop]
    · rcases rest with _ | ⟨r, rest⟩
      · refine ⟨_, _, on_write_full_last_noflag st f p d n hfd hp hbuf
          (Nat.le_of_not_lt hn) hflag, by simpa using hfd, rfl,
          by simpa using hflag, ?_⟩
        simp [hbuf]
      · refine ⟨_, p, on_write_full_cons st f d r rest n hfd hbuf
          (Nat.le_of_not_lt hn), by simpa using hfd, by simpa using hp,
          by simpa using hflag, ?_⟩
        simp [hbuf, List.append_assoc]

theorem drainWith_written_inv (ns : List Nat) (st : FileState) (f : FDState)
    (p : PollerState) (hfd : st.fd = some f) (hp : st.poller = some p)
    (hflag : st.closeflag = false) :
    ∃ st' p', drainWith st (ns.map .written) = .ok st' ∧ st'.fd = some f ∧
      st'.poller = some p' ∧ st'.closeflag = false ∧
      st'.sink ++ st'.buffer.flatten = st.sink ++ st.buffer.flatten := by
  induction ns generalizing st p with
  | nil => exact ⟨st, p, by simp [drainWith], hfd, hp, hflag, rfl⟩
  | cons n ns ih =>
    obtain ⟨st1, p1, h1, hfd1, hp1, hflag1, hinv1⟩ :=
      on_write_written_inv st n f p hfd hp hflag
    obtain ⟨st2, p2, h2, hfd2, hp2, hflag2, hinv2⟩ := ih st1 p1 hfd1 hp1 hflag1
    exact ⟨st2, p2, by simp [drainWith, h1, h2], hfd2, hp2, hflag2,
      hinv2.trans hinv1⟩

/-- C1: submitting chunks `c1, ..., cn` through `write` without an
intervening close and then draining `pendingWrites` through writer-readiness
notifications — each `os.write` accepting any number of bytes, partial
writes re-inserting the unwritten remainder at the head of the queue —
delivers to the sink exactly the concatenation `c1 ++ ... ++ cn` once the
buffer is observed empty. -/
theorem drain_delivers_submitted_concat (cs : List Chunk) (ns : List Nat)
    (st1 st2 : FileState)
    (h1 : writeAll openState cs = .ok st1)
    (h2 : drainWith st1 (ns.map WriteOutcome.written) = .ok st2)
    (hdrained : st2.buffer = []) :
    st2.sink = cs.flatten := by
  obtain ⟨st1', p', hw, hp', hfd', hflag', hsink', hbuf'⟩ :=
    writeAll_ok cs openState { reading := true, writing := false } rfl
  rw [h1] at hw
  cases hw
  obtain ⟨st2', p'', hd, _, _, _, hinv⟩ :=
    drainWith_written_inv ns st1 { closedF := false } p' hfd' hp' hflag'
  rw [h2] at hd
  cases hd
  rw [hdrained, hsink', hbuf'] at hinv
  simpa [File.openState] using hinv

/-- C1 witness: the spec's end-to-end scenario — chunks `"ab"`, `"cd"` with a
sink that accepts one byte per attempt is drained by four writer-ready
notifications into the concatenation `"abcd"`. -/
theorem drain_delivers_submitted_concat_witness :
    writeAll openState [[1, 2], [3, 4]] =
      .ok { openState with poller := some { reading := true, writing := true },
                           buffer := [[1, 2], [3, 4]] } ∧
    drainWith { openState with
                  poller := some { reading := true, writing := true },
                  buffer := [[1, 2], [3, 4]] }
        ([1, 1, 1, 1].map WriteOutcome.written) =
      .ok { openState with poller := some { reading := true, writing := false },
                           sink := [1, 2, 3, 4] } ∧
    ({ openState with poller := some { reading := true, writing := false },
                      sink := [1, 2, 3, 4] } : FileState).sink =
      ([[1, 2], [3, 4]] : List Chunk).flatten := by
  refine ⟨rfl, rfl, ?_⟩
  exact drain_delivers_submitted_concat [[1, 2], [3, 4]] [1, 1, 1, 1] _ _ rfl rfl rfl

end File

/-! ## Claim C4: buffer non-empty iff registered as writer -/

namespace File

/-- The lock-step invariant of the spec: `pendingWrites` is non-empty exactly
when the component's descriptor is registered as a writer with the poller. -/
def writerLockstep (st : FileState) : Prop :=
  ∀ p, st.poller = some p → (st.buffer ≠ [] ↔ p.writing = true)

theorem writerLockstep_closedResult (st : FileState) :
    writerLockstep (closedResult st) := by
  intro q hq
  simp [closedResult] at hq
  subst hq
  simp [closedResult]

theorem writerLockstep_transport (st st' : FileState)
    (hpoller : st'.poller = st.poller)
    (hbuffer : st'.buffer = [] ↔ st.buffer = [])
    (h : writerLockstep st) : writerLockstep st' := by
  intro q hq
  rw [hpoller] at hq
  have h2 := h q hq
  constructor
  · intro hb
    exact h2.mp fun hx => hb (hbuffer.mpr hx)
  · intro hw hx
    exact h2.mpr hw (hbuffer.mp hx)

/-- C4: every operation on an open component preserves the lock-step
invariant "`pendingWrites` non-empty iff registered as writer"; moreover
`write` establishes both together, and a writer-readiness notification that
leaves the buffer empty always leaves the writer deregistered (the latter is
the invariant read off at an empty buffer). -/
theorem writer_registration_lockstep (st : FileState) (f : FDState)
    (p : PollerState) (hfd : st.fd = some f) (hc : f.closedF = false)
    (hp : st.poller = some p) (hinv : writerLockstep st) :
    (∀ d st', write st d = .ok st' → writerLockstep st' ∧ st'.buffer ≠ [] ∧
      st'.poller = some { p with writing := true }) ∧
    (∀ o st', on_write st o = .ok st' → writerLockstep st' ∧
      (st'.buffer = [] → ∀ q, st'.poller = some q → q.writing = false)) ∧
    (∀ o st', on_read st o = .ok st' → writerLockstep st') ∧
    (∀ st', close st = .ok st' → writerLockstep st') ∧
    (∀ st', on_disconnect st = .ok st' → writerLockstep st') := by
  have hempty : ∀ st', writerLockstep st' →
      (st'.buffer = [] → ∀ q, st'.poller = some q → q.writing = false) := by
    intro st' hls hb q hq
    have := (hls q hq).mpr
    by_contra hw
    simp only [Bool.not_eq_false] at hw
    exact this hw hb
  refine ⟨?_, ?_, ?_, ?_, ?_⟩
  · intro d st' hok
    rw [write_ok st p hp d] at hok
    cases hok
    refine ⟨?_, by simp, rfl⟩
    intro q hq
    simp at hq
    subst hq
    simp
  · intro o st' hok
    refine (fun hls => ⟨hls, hempty st' hls⟩ :
      writerLockstep st' → writerLockstep st' ∧ _) ?_
    rcases hbuf : st.buffer with _ | ⟨d, rest⟩
    · rcases hflag : st.closeflag with _ | _
      · rw [on_write_empty_noflag st p hp hbuf hflag o] at hok
        cases hok
        intro q hq
        simp at hq
        subst hq
        simp [hbuf]
      · rw [on_write_empty_flag st f p hfd hc hp hbuf hflag o] at hok
        cases hok
        exact writerLockstep_closedResult st
    · have hwrit : p.writing = true := (hinv p hp).mp (by simp [hbuf])
      rcases o with n | e
      · by_cases hn : n < d.length
        · rw [on_write_short st f d rest n hfd hbuf hn] at hok
          cases hok
          refine writerLockstep_transport st _ (by simp) (by simp [hbuf]) hinv
        · rcases rest with _ | ⟨r, rest⟩
          · rcases hflag : st.closeflag with _ | _
            · rw [on_write_full_last_noflag st f p d n hfd hp hbuf
                (Nat.le_of_not_lt hn) hflag] at hok
              cases hok
              intro q hq
              simp at hq
              subst hq
              simp
            · rw [on_write_full_last_flag st f p d n hfd hc hp hbuf
                (Nat.le_of_not_lt hn) hflag] at hok
              cases hok
              exact writerLockstep_closedResult _
          · rw [on_write_full_cons st f d r rest n hfd hbuf
              (Nat.le_of_not_lt hn)] at hok
            cases hok
            exact writerLockstep_transport st _ (by simp) (by simp [hbuf]) hinv
      · by_cases he : e = errnoEPIPE ∨ e = errnoENOTCONN
        · rw [on_write_fault_peer st f p d rest e hfd hc hp hbuf he] at hok
          cases hok
          exact writerLockstep_closedResult st
        · push_neg at he
          rcases rest with _ | ⟨r, rest⟩
          · rcases hflag : st.closeflag with _ | _
            · rw [on_write_fault_other_last_noflag st f p d e hfd hp hbuf
                he.1 he.2 hflag] at hok
              cases hok
              intro q hq
              simp at hq
              subst hq
              simp
            · rw [on_write_fault_other_last_flag st f p d e hfd hc hp hbuf
                he.1 he.2 hflag] at hok
              cases hok
              exact writerLockstep_closedResult _
          · rw [on_write_fault_other_cons st f d r rest e hfd hbuf
              he.1 he.2] at hok
            cases hok
            exact writerLockstep_transport st _ (by simp) (by simp [hbuf]) hinv
  · intro o st' hok
    rcases o with data | e
    · by_cases hdata : data = []
      · subst hdata
        rcases hbuf : st.buffer with _ | ⟨d, rest⟩
        · rw [on_read_eof_empty st f p hfd hc hp hbuf] at hok
          cases hok
          exact writerLockstep_closedResult _
        · rw [on_read_eof_nonempty st f hfd (by simp [hbuf])] at hok
          cases hok
          exact writerLockstep_transport st _ (by simp) (by simp) hinv
      · rw [on_read_data st f data hfd hdata] at hok
        cases hok
        exact writerLockstep_transport st _ (by simp) (by simp) hinv
    · by_cases he : e = errnoEWOULDBLOCK
      · subst he
        rw [on_read_wouldblock st f hfd] at hok
        cases hok
        exact hinv
      · rw [on_read_fault st f p e hfd hc hp he] at hok
        cases hok
        exact writerLockstep_closedResult _
  · intro st' hok
    rcases hbuf : st.buffer with _ | ⟨d, rest⟩
    · rw [close_ok_empty st f p hfd hc hp hbuf] at hok
      cases hok
      exact writerLockstep_closedResult st
    · rw [close_ok_nonempty st (by simp [hbuf])] at hok
      cases hok
      exact writerLockstep_transport st _ (by simp) (by simp) hinv
  · intro st' hok
    rw [on_disconnect, _close_ok st f p hfd hc hp] at hok
    cases hok
    exact writerLockstep_closedResult st

/-- C4 witness: the invariant holds at the open state, `write` establishes
buffer and writer registration together, and the drain notification that
empties the buffer deregisters the writer. -/
theorem writer_registration_lockstep_witness :
    openState.fd = some { closedF := false } ∧
    writerLockstep openState ∧
    write openState [5] =
      .ok { openState with poller := some { reading := true, writing := true },
                           buffer := [[5]] } := by
  have h := writer_registration_lockstep openState { closedF := false }
    { reading := true, writing := false } rfl rfl rfl
    (by intro q hq; simp [openState] at hq; subst hq; simp [openState])
  refine ⟨rfl, by intro q hq; simp [openState] at hq; subst hq; simp [openState], ?_⟩
  exact ((h.1 [5] _ rfl).2).2 ▸ rfl

end File

/-! ## Claims about write faults (C6, C10) -/

namespace File

/-- C6: classification of write faults in `_write`.  A peer-gone fault
(`EPIPE` or `ENOTCONN`) force-closes immediately: one `Closed` is fired and
the buffer is dropped with the sink untouched — no drain happens first, for
any buffer contents.  Any other fault fires one `Error` and changes nothing
else: no `Closed`, no teardown, buffer and registrations intact. -/
theorem write_fault_classification (st : FileState) (f : FDState)
    (p : PollerState) (hfd : st.fd = some f) (hc : f.closedF = false)
    (hp : st.poller = some p) (data : Chunk) :
    (∀ e, e = errnoEPIPE ∨ e = errnoENOTCONN →
      _write st data (.fault e) = .ok (closedResult st)) ∧
    (∀ e, e ≠ errnoEPIPE → e ≠ errnoENOTCONN →
      _write st data (.fault e) =
        .ok { st with events := st.events ++ [Ev.errorEv e] }) := by
  constructor
  · intro e he
    simp [_write, hfd, he, _close_ok st f p hfd hc hp]
  · intro e he1 he2
    simp [_write, hfd, he1, he2, fireEv]

/-- Open component with two pending chunks, registered as writer. -/
def twoPendingState : FileState :=
  { fd := some { closedF := false },
    poller := some { reading := true, writing := true },
    buffer := [[1], [2]], closeflag := false, connected := none, sink := [],
    events := [] }

/-- C6 witness: on the component with two pending chunks, an `EPIPE` fault
fires `Closed` at once, dropping the buffer without draining it, while an
`EIO` fault (errno 5) fires only `Error` and leaves the state otherwise
untouched. -/
theorem write_fault_classification_witness :
    _write twoPendingState [0] (.fault errnoEPIPE) =
      .ok (closedResult twoPendingState) ∧
    _write twoPendingState [0] (.fault 5) =
      .ok { twoPendingState with events := [Ev.errorEv 5] } := by
  have h := write_fault_classification twoPendingState { closedF := false }
    { reading := true, writing := true } rfl rfl rfl [0]
  exact ⟨h.1 errnoEPIPE (Or.inl rfl), h.2 5 (by decide) (by decide)⟩

/-- C10: on a write fault that is neither peer-gone nor a partial write, the
chunk being written is silently discarded.  `__on_write` pops it from
`pendingWrites` before the attempt and the error path of `_write` does not
re-insert it: afterwards the buffer is exactly the remaining tail, the sink
never received the bytes, and the only signal fired is `Error` — the
component survives, but the submitted bytes are gone. -/
theorem nonfatal_write_fault_discards_chunk (st : FileState) (f : FDState)
    (p : PollerState) (d : Chunk) (rest : List Chunk) (e : Nat)
    (hfd : st.fd = some f) (hp : st.poller = some p)
    (hbuf : st.buffer = d :: rest) (hflag : st.closeflag = false)
    (he1 : e ≠ errnoEPIPE) (he2 : e ≠ errnoENOTCONN) :
    ∃ st', on_write st (.fault e) = .ok st' ∧ st'.buffer = rest ∧
      st'.sink = st.sink ∧ st'.events = st.events ++ [Ev.errorEv e] := by
  rcases rest with _ | ⟨r, rest⟩
  · exact ⟨_, on_write_fault_other_last_noflag st f p d e hfd hp hbuf he1 he2 hflag,
      rfl, rfl, rfl⟩
  · exact ⟨_, on_write_fault_other_cons st f d r rest e hfd hbuf he1 he2,
      rfl, rfl, rfl⟩

/-- C10 witness: an `EIO` fault while writing the head chunk `[1]` of the
two-chunk buffer leaves only `[2]` queued, nothing in the sink, and a single
`Error` signal — the bytes of `[1]` are lost. -/
theorem nonfatal_write_fault_discards_chunk_witness :
    ∃ st', on_write twoPendingState (.fault 5) = .ok st' ∧ st'.buffer = [[2]] ∧
      st'.sink = twoPendingState.sink ∧
      st'.events = twoPendingState.events ++ [Ev.errorEv 5] :=
  nonfatal_write_fault_discards_chunk twoPendingState { closedF := false }
    { reading := true, writing := true } [1] [[2]] 5 rfl rfl rfl rfl
    (by decide) (by decide)

end File

/-! ## Claims about the idle fallback handler (C8, C9) -/

namespace FallBackGenerator

/-- C8 counterexample: the claim says the `time_left < 0` loop blocks in
slices whose default length is approximately 10 seconds.  The loop's wait is
`self._continue.wait(10000)`, and `threading.Event.wait` takes seconds: each
slice is 10000 seconds, far from 10. -/
theorem idle_slice_not_ten_seconds_cex :
    negLoopWaits (fun _ => -1) 1 = [idleSliceTimeout] ∧
    idleSliceTimeout = 10000 ∧ idleSliceTimeout ≠ 10 ∧ ¬ idleSliceTimeout ≤ 60 :=
  ⟨rfl, rfl, by decide, by decide⟩

/-- C8 amended: when the idle fallback handler receives a generate-events
query with `time_left < 0`, it blocks repeatedly in fixed-length slices of
10000 seconds (the hard-coded timeout passed to `Event.wait`), until the
wake-up — `time_left` observed non-negative, as `resume`/`reduce_time_left`
make it — ends the loop: if the first non-negative observation is at check
`k`, exactly `k` slices are waited. -/
theorem idle_neg_fixed_slices (tl : Nat → Int) (fuel : Nat) :
    (∀ t ∈ negLoopWaits tl fuel, t = idleSliceTimeout) ∧
    (∀ k, k ≤ fuel → (∀ i, i < k → tl i < 0) → 0 ≤ tl k →
      (negLoopWaits tl fuel).length = k) := by
  constructor
  · induction fuel generalizing tl with
    | zero => simp [negLoopWaits]
    | succ fuel ih =>
      intro t ht
      simp only [negLoopWaits] at ht
      by_cases h0 : tl 0 < 0
      · rw [if_pos h0] at ht
        rcases List.mem_cons.mp ht with h | h
        · exact h
        · exact ih _ t h
      · rw [if_neg h0] at ht
        simp at ht
  · intro k
    induction k generalizing tl fuel with
    | zero =>
      intro _ _ hk
      rcases fuel with _ | fuel
      · simp [negLoopWaits]
      · simp [negLoopWaits, Int.not_lt.mpr hk]
    | succ k ih =>
      intro hle hneg hk
      rcases fuel with _ | fuel
      · omega
      · have h0 : tl 0 < 0 := hneg 0 (Nat.succ_pos k)
        simp only [negLoopWaits, if_pos h0, List.length_cons]
        rw [ih (fun i => tl (i + 1)) fuel (Nat.le_of_succ_le_succ hle)
          (fun i hi => hneg (i + 1) (Nat.succ_lt_succ hi)) hk]

/-- C8 witness: with `time_left` observed negative at the first two checks
and zero at the third, the loop performs exactly two waits, each of the
fixed 10000-second slice. -/
theorem idle_neg_fixed_slices_witness :
    (negLoopWaits (fun i => if i < 2 then -1 else 0) 5).length = 2 ∧
    negLoopWaits (fun i => if i < 2 then -1 else 0) 5 =
      [idleSliceTimeout, idleSliceTimeout] := by
  have h := idle_neg_fixed_slices (fun i => if i < 2 then -1 else 0) 5
  exact ⟨h.2 2 (by decide) (fun i hi => by simp [hi]) (by simp), by decide⟩

/-- C9: invoking `resume()` from another thread while the handler is in the
`time_left > 0` wait makes the wait return within the time it took to call
`resume` — a bound independent of the remaining timeout, since
`Event.wait` returns as soon as the level-triggered signal is set — and the
handler then calls `event.reduce_time_left(0)`, so the subsequent
`time_left` is 0. -/
theorem resume_bounds_idle_wait (time_left : Int) (h : 0 < time_left) (r : Nat) :
    (on_generate_events_pos time_left (some r)).1 ≤ r ∧
    (on_generate_events_pos time_left (some r)).2 = 0 :=
  ⟨Nat.min_le_right _ r, rfl⟩

/-- C9 witness: a wait with 3600 time units left, resumed 2 time units in,
returns within 2 time units and leaves `time_left` normalized to 0. -/
theorem resume_bounds_idle_wait_witness :
    (on_generate_events_pos 3600 (some 2)).1 ≤ 2 ∧
    (on_generate_events_pos 3600 (some 2)).2 = 0 :=
  resume_bounds_idle_wait 3600 (by decide) 2

end FallBackGenerator

end Circuits
